import Mathlib

/-!
# Verification of the clinical-management authorization and aggregation layer

Shallow embedding of the role-scoping, soft-deletion and aggregation logic of
the clinical-management application (apps/core, apps/clinical, apps/catalog,
apps/scheduling).  Tables are lists of records, nullable columns are `Option`,
timestamps are integers.  Descriptive columns that no embedded operation reads
(patient gender and date of birth, free-text notes, the `is_primary` flag,
created/updated audit stamps) are elided.
-/

namespace ClinicalApp

/-- `clinical.models.Department` (no soft delete). -/
structure Department where
  id : Nat
  name : String
deriving DecidableEq, Repr

/-- `clinical.models.Clinician` (soft-deletable). `userId` is the 1:1 owner. -/
structure Clinician where
  id : Nat
  userId : Nat
  departmentId : Nat
  name : String
  deleted_at : Option Nat
deriving DecidableEq, Repr

/-- `clinical.models.Patient` (soft-deletable). -/
structure Patient where
  id : Nat
  name : String
  email : Option String
  deleted_at : Option Nat
deriving DecidableEq, Repr

/-- `clinical.models.PatientClinician` (soft-deletable): the CareRelationship
row linking a patient and a clinician. `relationship_end = none` means the
relationship is still open. -/
structure PatientClinician where
  id : Nat
  patientId : Nat
  clinicianId : Nat
  relationship_start : Int
  relationship_end : Option Int
  deleted_at : Option Nat
deriving DecidableEq, Repr

/-- `catalog.models.ProcedureType` (no soft delete; retirement is `is_active = false`). -/
structure ProcedureType where
  id : Nat
  name : String
  code : String
  default_duration_minutes : Option Nat
  departmentId : Option Nat
  is_active : Bool
deriving DecidableEq, Repr

/-- `scheduling.models.Procedure` (soft-deletable). `status` is one of the
`ProcedureStatus` choice strings. -/
structure Procedure where
  id : Nat
  procedureTypeId : Nat
  patientId : Nat
  clinicianId : Nat
  name : String
  scheduled_at : Int
  duration_minutes : Option Nat
  status : String
  deleted_at : Option Nat
deriving DecidableEq, Repr

/-- The persistent store: one list per table. -/
structure Store where
  departments : List Department
  clinicians : List Clinician
  patients : List Patient
  links : List PatientClinician
  procedureTypes : List ProcedureType
  procedures : List Procedure
deriving DecidableEq, Repr

/-- An authenticated-or-not request principal.  `inPatientAdminGroup` embeds
`user.groups.filter(name="patient_admin").exists()`; `clinicianProfileId`
embeds the reverse 1:1 accessor `user.clinician_profile` (which resolves via
the base manager, so it is present even when the clinician row is
soft-deleted). -/
structure Principal where
  isAuthenticated : Bool
  inPatientAdminGroup : Bool
  clinicianProfileId : Option Nat
deriving DecidableEq, Repr

/-- `core.models.SoftDeleteModel.delete` on a Patient: sets only `deleted_at`. -/
def softDeletePatient (now : Nat) (p : Patient) : Patient :=
  { p with deleted_at := some now }

/-- `core.models.SoftDeleteModel.delete` on a Clinician. -/
def softDeleteClinician (now : Nat) (c : Clinician) : Clinician :=
  { c with deleted_at := some now }

/-- `core.models.SoftDeleteModel.delete` on a PatientClinician row. -/
def softDeleteLink (now : Nat) (l : PatientClinician) : PatientClinician :=
  { l with deleted_at := some now }

/-- `core.models.SoftDeleteModel.delete` on a Procedure. -/
def softDeleteProcedure (now : Nat) (pr : Procedure) : Procedure :=
  { pr with deleted_at := some now }

/-- `SoftDeleteManager.get_queryset` for `Patient.objects`: the default read
hides soft-deleted rows. -/
def patientObjects (s : Store) : List Patient :=
  s.patients.filter (fun p => decide (p.deleted_at = none))

/-- `SoftDeleteManager.get_queryset` for `Clinician.objects`. -/
def clinicianObjects (s : Store) : List Clinician :=
  s.clinicians.filter (fun c => decide (c.deleted_at = none))

/-- `SoftDeleteManager.get_queryset` for `PatientClinician.objects`. -/
def linkObjects (s : Store) : List PatientClinician :=
  s.links.filter (fun l => decide (l.deleted_at = none))

/-- `SoftDeleteManager.get_queryset` for `Procedure.objects`. -/
def procedureObjects (s : Store) : List Procedure :=
  s.procedures.filter (fun pr => decide (pr.deleted_at = none))

/-- Case-insensitive substring test, embedding the `icontains` lookup.  Only
used when a `search` parameter is supplied; the claims under proof never
exercise it. -/
def icontainsStr (hay needle : String) : Bool :=
  let h := hay.toLower.data
  let n := needle.toLower.data
  (List.range (h.length + 1)).any (fun i => decide ((h.drop i).take n.length = n))

/-- The role-scoped `base_qs` of `PatientViewSet.get_queryset`.  The clinician
branch joins through the reverse FK `patient_clinician_links`, a raw join that
bypasses the soft-delete manager of the link table: only
`relationship_end__isnull=True` and the clinician FK are constrained. -/
def patientBaseScope (s : Store) (u : Principal) : List Patient :=
  if u.inPatientAdminGroup then patientObjects s
  else
    match u.clinicianProfileId with
    | some cid =>
        (patientObjects s).filter (fun p => decide (∃ l ∈ s.links,
          l.patientId = p.id ∧ l.clinicianId = cid ∧ l.relationship_end = none))
    | none => []

/-- The optional `?search=` narrowing of `PatientViewSet.get_queryset`
(`name__icontains OR email__icontains`); a missing or empty parameter is a
no-op. -/
def applySearch (search : Option String) (base : List Patient) : List Patient :=
  match search with
  | none => base
  | some q =>
      if q = "" then base
      else base.filter (fun p =>
        icontainsStr p.name q ||
          (match p.email with
           | some e => icontainsStr e q
           | none => false))

/-- `clinical.views.PatientViewSet.get_queryset`. -/
def patientViewSetQueryset (s : Store) (u : Principal) (search : Option String) :
    List Patient :=
  applySearch search (patientBaseScope s u)

/-- `scheduling.views.ProcedureViewSet.get_queryset` exactly as written:
it branches on `hasattr(user, "clinician_profile")` only and never consults
the `patient_admin` group. -/
def procedureViewSetQueryset (s : Store) (u : Principal) : List Procedure :=
  let qs := procedureObjects s
  match u.clinicianProfileId with
  | some cid => qs.filter (fun pr => decide (pr.clinicianId = cid))
  | none => []

/-- Character-wise strict order on strings, the stand-in for the database
collation used by `order_by("name", ...)`; shared by the view embedding and
the reference algorithm. -/
def charListLt : List Char → List Char → Bool
  | [], [] => false
  | [], _ :: _ => true
  | _ :: _, [] => false
  | a :: as, b :: bs =>
      if a.val < b.val then true
      else if b.val < a.val then false
      else charListLt as bs

/-- Strict name order. -/
def strOrder (a b : String) : Bool :=
  charListLt a.data b.data

/-- Deterministic `order_by("name", "id")` order on clinicians. -/
def clinOrder (a b : Clinician) : Prop :=
  strOrder a.name b.name = true ∨ (a.name = b.name ∧ a.id ≤ b.id)

instance : DecidableRel clinOrder := fun _ _ =>
  inferInstanceAs (Decidable (_ ∨ _))

/-- `LimitOffsetPagination`: the page is `offset` dropped, `limit` taken. -/
def paginate (limit offset : Nat) (l : List α) : List α :=
  (l.drop offset).take limit

/-- One row of the clinician-patient-count report. -/
structure CountRow where
  clinician_id : Nat
  clinician_name : String
  patient_count : Nat
deriving DecidableEq, Repr

/-- Responses of `DepartmentClinicianPatientCountView.get`. -/
inductive CountResponse where
  | notFound : CountResponse
  | badRequest (field : String) : CountResponse
  | ok (rows : List CountRow) (count : Nat) (departmentId : Nat) : CountResponse
deriving DecidableEq, Repr

/-- The per-clinician distinct-patient count of step 6 of
`DepartmentClinicianPatientCountView.get`: rows of `PatientClinician.objects`
(the manager already hides soft-deleted links, and the view filters
`deleted_at__isnull=True` again) with open end and a non-soft-deleted patient,
grouped by clinician, counting distinct patient ids. -/
def patientCountFor (s : Store) (cid : Nat) : Nat :=
  (((s.links.filter (fun l => decide (l.deleted_at = none ∧ l.clinicianId = cid ∧
      l.relationship_end = none ∧
      ∃ p ∈ s.patients, p.id = l.patientId ∧ p.deleted_at = none)))).map
    (fun l => l.patientId)).dedup.length

/-- Step 2 of `DepartmentClinicianPatientCountView.get`: department-scoped
non-deleted clinicians (`Clinician.objects.filter(department=department)`). -/
def clinicianDeptScope (s : Store) (deptId : Nat) : List Clinician :=
  s.clinicians.filter
    (fun c => decide (c.deleted_at = none ∧ c.departmentId = deptId))

/-- Step 3: a clinician who is not an admin is restricted to their own row. -/
def clinicianRoleScope (u : Principal) (qs0 : List Clinician) : List Clinician :=
  if u.clinicianProfileId.isSome && !u.inPatientAdminGroup then
    qs0.filter (fun c => decide (some c.id = u.clinicianProfileId))
  else qs0

/-- Step 4: the `clinician_id` parameter has an effect only for admins. -/
def clinicianParamScope (u : Principal) (param : Option (Option Int))
    (qs1 : List Clinician) : Option (List Clinician) :=
  match param with
  | none => some qs1
  | some pv =>
      if u.inPatientAdminGroup then
        match pv with
        | none => none
        | some n => some (qs1.filter (fun c => decide ((c.id : Int) = n)))
      else some qs1

/-- Steps 2-4 of `DepartmentClinicianPatientCountView.get` combined.  The
`clinician_id` parameter is `none` when absent, `some none` when present but
not an integer, `some (some n)` when present and integral; the result is
`none` exactly when the view answers 400. -/
def scopedClinicians (s : Store) (u : Principal) (deptId : Nat)
    (param : Option (Option Int)) : Option (List Clinician) :=
  clinicianParamScope u param (clinicianRoleScope u (clinicianDeptScope s deptId))

/-- `clinical.views.DepartmentClinicianPatientCountView.get`: resolve the
department (404), scope the clinicians, sort by (name, id), paginate, then
annotate only the page with distinct-patient counts (absent group = 0). -/
def departmentClinicianPatientCounts (s : Store) (u : Principal) (deptId : Nat)
    (param : Option (Option Int)) (limit offset : Nat) : CountResponse :=
  match s.departments.find? (fun d => decide (d.id = deptId)) with
  | none => .notFound
  | some dept =>
      match scopedClinicians s u deptId param with
      | none => .badRequest "clinician_id"
      | some qs =>
          let sorted := qs.insertionSort clinOrder
          let page := paginate limit offset sorted
          .ok (page.map (fun c => ⟨c.id, c.name, patientCountFor s c.id⟩))
            sorted.length dept.id

/-- Order on annotated report rows by clinician name then clinician id (the
patient count is not part of the sort key). -/
def rowOrder (a b : CountRow) : Prop :=
  strOrder a.clinician_name b.clinician_name = true ∨
    (a.clinician_name = b.clinician_name ∧ a.clinician_id ≤ b.clinician_id)

instance : DecidableRel rowOrder := fun _ _ =>
  inferInstanceAs (Decidable (_ ∨ _))

/-- Reference algorithm for the count report (claim C10's comparison point):
annotate the entire scoped clinician set with counts first, sort the annotated
rows by (name, id), and paginate afterwards. -/
def refDepartmentClinicianPatientCounts (s : Store) (u : Principal) (deptId : Nat)
    (param : Option (Option Int)) (limit offset : Nat) : CountResponse :=
  match s.departments.find? (fun d => decide (d.id = deptId)) with
  | none => .notFound
  | some dept =>
      match scopedClinicians s u deptId param with
      | none => .badRequest "clinician_id"
      | some qs =>
          let annotated :=
            (qs.map (fun c => (⟨c.id, c.name, patientCountFor s c.id⟩ : CountRow))).insertionSort
              rowOrder
          .ok (paginate limit offset annotated) annotated.length dept.id

/-- Claim-side definition for C2 (spec §4.2/§4.3 wording): patients with at
least one CareRelationship to the clinician satisfying all four activity
conditions — open end, link not soft-deleted, patient not soft-deleted,
clinician not soft-deleted. -/
def claimVisiblePatients (s : Store) (cid : Nat) : List Patient :=
  s.patients.filter (fun p => decide (p.deleted_at = none ∧
    ∃ l ∈ s.links, l.patientId = p.id ∧ l.clinicianId = cid ∧
      l.relationship_end = none ∧ l.deleted_at = none ∧
      ∃ c ∈ s.clinicians, c.id = cid ∧ c.deleted_at = none))

/-- Claim-side count for C3: the number of distinct non-soft-deleted patients
reachable from the clinician via an active CareRelationship (open end, link
not soft-deleted).  Counted over the patient table, so each patient counts
once however many links reach it. -/
def claimPatientCount (s : Store) (cid : Nat) : Nat :=
  (s.patients.filter (fun p => decide (p.deleted_at = none ∧
    ∃ l ∈ s.links, l.patientId = p.id ∧ l.clinicianId = cid ∧
      l.relationship_end = none ∧ l.deleted_at = none))).length

/-! ## Scheduled-patients report (`ProcedureScheduledPatientsView`) -/

/-- Query parameters of the scheduled-patients report.  Integer-like
parameters are `Option Int` (absent or parsed); `procedure_type_id` is
`none` when absent, `some none` when present but not an integer.
`clinician_id` is read by the view only to be popped for clinicians, and
`ProcedureScheduledPatientsFilter` defines no `clinician_id` filter, so the
embedding stores it without ever consulting it. -/
structure SchedParams where
  procedure_type_id : Option (Option Int)
  procedure_type : Option Int
  date_from : Option Int
  date_to : Option Int
  department_id : Option Int
  clinician : Option Int
  clinician_id : Option Int
deriving DecidableEq, Repr

/-- Responses of `ProcedureScheduledPatientsView`. -/
inductive SchedResponse where
  | badRequest (field : String) : SchedResponse
  | notFound : SchedResponse
  | ok (rows : List Procedure) : SchedResponse
deriving DecidableEq, Repr

/-- `order_by("scheduled_at", "id")` order on procedures. -/
def procOrder (a b : Procedure) : Prop :=
  a.scheduled_at < b.scheduled_at ∨ (a.scheduled_at = b.scheduled_at ∧ a.id ≤ b.id)

instance : DecidableRel procOrder := fun _ _ =>
  inferInstanceAs (Decidable (_ ∨ _))

/-- Form cleaning of the `clinician` ModelChoice parameter: valid iff the id
names a row of the filter's queryset, the default (soft-delete hiding)
manager. -/
def cleanedClinician (s : Store) (v : Int) : Option Clinician :=
  (clinicianObjects s).find? (fun c => decide ((c.id : Int) = v))

/-- Form cleaning of the `procedure_type` ModelChoice parameter (the catalog
table has no soft delete, so the queryset is the whole table). -/
def cleanedProcedureType (s : Store) (v : Int) : Option ProcedureType :=
  s.procedureTypes.find? (fun t => decide ((t.id : Int) = v))

/-- `date_from > date_to` check shared by the view and the filterset. -/
def dateRangeReversed (df dt : Option Int) : Bool :=
  match df, dt with
  | some a, some b => decide (b < a)
  | _, _ => false

/-- `ProcedureScheduledPatientsView.get_queryset`: non-deleted procedures of
the validated type in an active status whose patient and clinician rows are
not soft-deleted; clinicians (who are not admins) are restricted to self;
ordered by (scheduled_at, id). -/
def schedBaseQueryset (s : Store) (u : Principal) (pt : ProcedureType) :
    List Procedure :=
  let qs := (procedureObjects s).filter (fun pr => decide (
    pr.procedureTypeId = pt.id ∧
    (pr.status = "PLANNED" ∨ pr.status = "SCHEDULED") ∧
    (∃ p ∈ s.patients, p.id = pr.patientId ∧ p.deleted_at = none) ∧
    (∃ c ∈ s.clinicians, c.id = pr.clinicianId ∧ c.deleted_at = none)))
  let qs2 :=
    if u.clinicianProfileId.isSome && !u.inPatientAdminGroup then
      qs.filter (fun pr => decide (some pr.clinicianId = u.clinicianProfileId))
    else qs
  qs2.insertionSort procOrder

/-- `ProcedureScheduledPatientsFilter.filter_queryset` run on cleaned form
data: requires a `procedure_type` value (its existence re-check against the
table always succeeds for a cleaned value), re-validates the date range, then
applies every present filter as a conjunction. -/
def filtersetFilterQueryset (s : Store) (pt : Option ProcedureType)
    (df dt : Option Int) (dep : Option Int) (cl : Option Clinician)
    (qs : List Procedure) : Except String (List Procedure) :=
  match pt with
  | none => .error "procedure_type"
  | some t =>
      if dateRangeReversed df dt then .error "non_field_errors"
      else
        .ok (qs.filter (fun pr =>
          decide (pr.procedureTypeId = t.id) &&
          (match df with
           | some a => decide (a ≤ pr.scheduled_at)
           | none => true) &&
          (match dt with
           | some b => decide (pr.scheduled_at ≤ b)
           | none => true) &&
          (match dep with
           | some d => s.clinicians.any
               (fun c => decide (c.id = pr.clinicianId ∧ (c.departmentId : Int) = d))
           | none => true) &&
          (match cl with
           | some c => decide (pr.clinicianId = c.id)
           | none => true)))

/-- `ProcedureScheduledPatientsView.filter_queryset`.  For a clinician who is
not an admin the `clinician_id` parameter is popped and the filterset is
evaluated directly (`filterset.qs`), where an invalid model choice is simply
dropped from the cleaned data; on the admin path the DRF filter backend
raises a field-keyed 400 on an invalid choice before filtering. -/
def schedFilterQueryset (s : Store) (u : Principal) (params : SchedParams)
    (qs : List Procedure) : Except String (List Procedure) :=
  if u.clinicianProfileId.isSome && !u.inPatientAdminGroup then
    filtersetFilterQueryset s (params.procedure_type.bind (cleanedProcedureType s))
      params.date_from params.date_to params.department_id
      (params.clinician.bind (cleanedClinician s)) qs
  else
    if params.procedure_type.isSome &&
        (params.procedure_type.bind (cleanedProcedureType s)).isNone then
      .error "procedure_type"
    else if params.clinician.isSome &&
        (params.clinician.bind (cleanedClinician s)).isNone then
      .error "clinician"
    else
      filtersetFilterQueryset s (params.procedure_type.bind (cleanedProcedureType s))
        params.date_from params.date_to params.department_id
        (params.clinician.bind (cleanedClinician s)) qs

/-- `ProcedureScheduledPatientsView.list`: validate `procedure_type_id`
(400 when absent or not an integer, 404 when no such type), validate the date
range, then scope, filter and paginate. -/
def procedureScheduledPatients (s : Store) (u : Principal) (params : SchedParams)
    (limit offset : Nat) : SchedResponse :=
  match params.procedure_type_id with
  | none => .badRequest "procedure_type_id"
  | some none => .badRequest "procedure_type_id"
  | some (some n) =>
      match s.procedureTypes.find? (fun t => decide ((t.id : Int) = n)) with
      | none => .notFound
      | some pt =>
          if dateRangeReversed params.date_from params.date_to then
            .badRequest "non_field_errors"
          else
            match schedFilterQueryset s u params (schedBaseQueryset s u pt) with
            | .error f => .badRequest f
            | .ok qs => .ok (paginate limit offset qs)

/-! ## Procedure creation (`ProcedureSerializer` + `ProcedureViewSet.perform_create`) -/

/-- `Procedure.ProcedureStatus` choice strings. -/
def statusChoices : List String :=
  ["PLANNED", "SCHEDULED", "COMPLETED", "CANCELLED", "NO_SHOW", "VOID"]

/-- The write payload of `POST /api/v1/procedures/`. -/
structure ProcedureInput where
  patient_id : Nat
  procedure_type_id : Nat
  clinician_id : Nat
  name : Option String
  scheduled_at : Option Int
  duration_minutes : Option Nat
  status : String
deriving DecidableEq, Repr

/-- Field-level (to_internal_value) errors, keyed by field, in `Meta.fields`
order: `procedure_type_id` resolves against `ProcedureType.objects.filter(is_active=True)`,
`patient_id` against `Patient.objects`, `clinician_id` against
`Clinician.objects`; `scheduled_at` is a required model field; `status` must
be a declared choice. -/
def fieldErrors (s : Store) (inp : ProcedureInput) : List String :=
  (if (s.procedureTypes.filter (fun t => t.is_active)).any
        (fun t => decide (t.id = inp.procedure_type_id))
    then [] else ["procedure_type_id"]) ++
  (if (patientObjects s).any (fun p => decide (p.id = inp.patient_id))
    then [] else ["patient_id"]) ++
  (if (clinicianObjects s).any (fun c => decide (c.id = inp.clinician_id))
    then [] else ["clinician_id"]) ++
  (if inp.scheduled_at.isSome then [] else ["scheduled_at"]) ++
  (if statusChoices.contains inp.status then [] else ["status"])

/-- The active-link lookup shared by `ProcedureSerializer.validate` and
`ProcedureViewSet.perform_create`: `PatientClinician.objects` (manager hides
soft-deleted rows) filtered on patient, clinician, open end and
`deleted_at__isnull=True`. -/
def hasActiveLink (s : Store) (pid cid : Nat) : Bool :=
  (linkObjects s).any (fun l => decide (l.patientId = pid ∧ l.clinicianId = cid ∧
    l.relationship_end = none ∧ l.deleted_at = none))

/-- `ProcedureSerializer.validate`: the error-dict keys it can raise, in
insertion order — `scheduled_at` (required / not in the past for PLANNED or
SCHEDULED), then for a clinician who is not an admin `clinician_id`
(self-assignment) and `patient_id` (active link with the submitted
clinician). -/
def validateErrors (s : Store) (u : Principal) (now : Int) (inp : ProcedureInput) :
    List String :=
  let e1 :=
    if inp.status = "PLANNED" ∨ inp.status = "SCHEDULED" then
      match inp.scheduled_at with
      | none => ["scheduled_at"]
      | some t => if t < now then ["scheduled_at"] else []
    else []
  let is_admin := u.isAuthenticated && u.inPatientAdminGroup
  let is_clinician_user := u.isAuthenticated && u.clinicianProfileId.isSome
  if is_clinician_user && !is_admin then
    match u.clinicianProfileId with
    | some cid =>
        let e2 := if inp.clinician_id = cid then [] else ["clinician_id"]
        let e3 := if hasActiveLink s inp.patient_id inp.clinician_id then []
                  else ["patient_id"]
        e1 ++ e2 ++ e3
    | none => e1
  else e1

/-- `ProcedureSerializer.create`: fall back to the type's default duration
when `duration_minutes` is omitted (only when the default is truthy, i.e.
non-null and non-zero) and to the type's name when `name` is blank. -/
def buildProcedure (s : Store) (inp : ProcedureInput) (newId : Nat) : Procedure :=
  let pt := (s.procedureTypes.filter (fun t => t.is_active)).find?
    (fun t => decide (t.id = inp.procedure_type_id))
  let duration :=
    match inp.duration_minutes, pt with
    | none, some t =>
        (match t.default_duration_minutes with
         | some d => if d = 0 then none else some d
         | none => none)
    | d, _ => d
  let nm :=
    match inp.name, pt with
    | none, some t => t.name
    | some "", some t => t.name
    | some x, _ => x
    | none, none => ""
  { id := newId, procedureTypeId := inp.procedure_type_id,
    patientId := inp.patient_id, clinicianId := inp.clinician_id, name := nm,
    scheduled_at := inp.scheduled_at.getD 0, duration_minutes := duration,
    status := inp.status, deleted_at := none }

/-- Outcomes of a procedure-creation request. -/
inductive CreateOutcome where
  | validationError (fields : List String) : CreateOutcome
  | permissionDenied : CreateOutcome
  | created (pr : Procedure) : CreateOutcome
deriving DecidableEq, Repr

/-- `ProcedureViewSet.perform_create`: for a clinician who is not an admin,
re-check the active link against the principal's own clinician and raise
PermissionDenied when absent; otherwise `serializer.save()`. -/
def performCreate (s : Store) (u : Principal) (inp : ProcedureInput)
    (newId : Nat) : CreateOutcome :=
  if u.clinicianProfileId.isSome && !u.inPatientAdminGroup then
    match u.clinicianProfileId with
    | some cid =>
        if hasActiveLink s inp.patient_id cid then
          .created (buildProcedure s inp newId)
        else .permissionDenied
    | none => .created (buildProcedure s inp newId)
  else .created (buildProcedure s inp newId)

/-- The creation pipeline: DRF field validation, then
`ProcedureSerializer.validate`, then `ProcedureViewSet.perform_create`. -/
def procedureCreate (s : Store) (u : Principal) (now : Int) (inp : ProcedureInput)
    (newId : Nat) : CreateOutcome :=
  match fieldErrors s inp with
  | [] =>
      match validateErrors s u now inp with
      | [] => performCreate s u inp newId
      | es => .validationError es
  | fs => .validationError fs

/-- Error keys carried by a creation outcome (empty unless it is a
validation error). -/
def errorKeys : CreateOutcome → List String
  | .validationError fs => fs
  | _ => []

/-- Retiring a procedure type: set `is_active := false` on the given id. -/
def retireType (s : Store) (tid : Nat) : Store :=
  { s with procedureTypes :=
      s.procedureTypes.map (fun t => if t.id = tid then { t with is_active := false } else t) }

/-! ## Concrete data used by counterexamples and witnesses -/

/-- A department. -/
def dept1 : Department := ⟨1, "Cardiology"⟩

/-- A live clinician in department 1, owned by user 10. -/
def exClin : Clinician := ⟨1, 10, 1, "Dr. A", none⟩

/-- A second live clinician in department 1. -/
def clinB : Clinician := ⟨2, 11, 1, "Dr. B", none⟩

/-- A live patient. -/
def exPat : Patient := ⟨1, "Jane", none, none⟩

/-- A second live patient, not linked to anyone. -/
def exPat2 : Patient := ⟨2, "John", none, none⟩

/-- An active procedure type. -/
def typ1 : ProcedureType := ⟨1, "MRI Brain", "MRI", some 30, some 1, true⟩

/-- A retired procedure type. -/
def typ2 : ProcedureType := ⟨2, "Old Test", "OLD", some 10, some 1, false⟩

/-- An open care relationship from patient 1 to clinician 1 that has been
soft-deleted. -/
def deletedLink : PatientClinician := ⟨1, 1, 1, 0, none, some 5⟩

/-- An open, live care relationship from patient 1 to clinician 1. -/
def activeLink : PatientClinician := ⟨2, 1, 1, 0, none, none⟩

/-- A planned procedure of clinician 1 on patient 1. -/
def procA : Procedure := ⟨21, 1, 1, 1, "MRI Brain", 100, some 30, "PLANNED", none⟩

/-- A planned procedure of clinician 2 on patient 1. -/
def procB : Procedure := ⟨22, 1, 1, 2, "MRI Brain", 100, some 30, "PLANNED", none⟩

/-- The clinician-1 principal (authenticated, not in the admin group). -/
def clinPrincipal : Principal := ⟨true, false, some 1⟩

/-- An admin principal with no clinician profile. -/
def adminPrincipal : Principal := ⟨true, true, none⟩

/-- A principal who is both admin and clinician 1. -/
def adminClinPrincipal : Principal := ⟨true, true, some 1⟩

/-- Store whose only patient-clinician link is soft-deleted (C2/C4). -/
def linkStore : Store := ⟨[dept1], [exClin], [exPat], [deletedLink], [], []⟩

/-- `linkStore` with the soft-deleted link removed entirely. -/
def linkStoreNoLink : Store := ⟨[dept1], [exClin], [exPat], [], [], []⟩

/-- Store with two clinicians and one procedure each (C1). -/
def c1Store : Store :=
  ⟨[dept1], [exClin, clinB], [exPat], [activeLink], [typ1], [procA, procB]⟩

/-- Store for the scheduled-patients report scenarios (C5): clinician 1 has
one planned procedure, clinician 2 has none. -/
def c5Store : Store := ⟨[dept1], [exClin, clinB], [exPat], [activeLink], [typ1], [procA]⟩

/-- Scheduled-report request naming only the procedure type. -/
def c5ParamsBase : SchedParams := ⟨some (some 1), some 1, none, none, none, none, none⟩

/-- The same request with a `clinician` filter naming the OTHER clinician. -/
def c5ParamsOther : SchedParams := { c5ParamsBase with clinician := some 2 }

/-- A general-purpose store for witnesses: one active link patient1–clinician1,
one unlinked patient, one active and one retired type, one procedure. -/
def wStore : Store :=
  ⟨[dept1], [exClin, clinB], [exPat, exPat2], [activeLink], [typ1, typ2], [procA]⟩

/-! ## Helper lemmas -/

/-- Every element of a page is an element of the underlying list. -/
theorem mem_of_mem_paginate {α : Type} {limit offset : Nat} {l : List α} {a : α}
    (h : a ∈ paginate limit offset l) : a ∈ l :=
  ((l.drop offset).take_sublist limit).subset.trans (l.drop_sublist offset).subset h

/-- The group-by-clinician distinct count of the view equals the claim-side
count over the patient table, provided patient ids are unique. -/
theorem patientCountFor_eq_claimPatientCount (s : Store) (cid : Nat)
    (h : (s.patients.map Patient.id).Nodup) :
    patientCountFor s cid = claimPatientCount s cid := by
  classical
  unfold patientCountFor claimPatientCount
  set q : PatientClinician → Bool := fun l => decide (l.deleted_at = none ∧
    l.clinicianId = cid ∧ l.relationship_end = none ∧
    ∃ p ∈ s.patients, p.id = l.patientId ∧ p.deleted_at = none) with hq
  set r : Patient → Bool := fun p => decide (p.deleted_at = none ∧
    ∃ l ∈ s.links, l.patientId = p.id ∧ l.clinicianId = cid ∧
      l.relationship_end = none ∧ l.deleted_at = none) with hr
  have h1 : ((s.links.filter q).map (fun l => l.patientId)).dedup.Nodup :=
    List.nodup_dedup _
  have h2 : ((s.patients.filter r).map Patient.id).Nodup :=
    (s.patients.filter_sublist.map Patient.id).nodup h
  have hmem : ∀ x : Nat,
      x ∈ ((s.links.filter q).map (fun l => l.patientId)).dedup ↔
      x ∈ (s.patients.filter r).map Patient.id := by
    intro x
    simp only [List.mem_dedup, List.mem_map, List.mem_filter, hq, hr,
      decide_eq_true_eq]
    constructor
    · rintro ⟨l, ⟨hl, hld, hlc, hle, p, hp, hpid, hpd⟩, hlx⟩
      exact ⟨p, ⟨hp, hpd, l, hl, by omega, hlc, hle, hld⟩, by omega⟩
    · rintro ⟨p, ⟨hp, hpd, l, hl, hlp, hlc, hle, hld⟩, hpx⟩
      exact ⟨l, ⟨hl, hld, hlc, hle, p, hp, by omega, hpd⟩, by omega⟩
  have hperm := (List.perm_ext_iff_of_nodup h1 h2).2 hmem
  calc ((s.links.filter q).map (fun l => l.patientId)).dedup.length
      = ((s.patients.filter r).map Patient.id).length := hperm.length_eq
    _ = (s.patients.filter r).length := List.length_map _ _

/-- Membership in the default patient read. -/
theorem mem_patientObjects {s : Store} {p : Patient} :
    p ∈ patientObjects s ↔ p ∈ s.patients ∧ p.deleted_at = none := by
  simp [patientObjects, List.mem_filter]

/-- Membership in the default clinician read. -/
theorem mem_clinicianObjects {s : Store} {c : Clinician} :
    c ∈ clinicianObjects s ↔ c ∈ s.clinicians ∧ c.deleted_at = none := by
  simp [clinicianObjects, List.mem_filter]

/-- Membership in the default care-relationship read. -/
theorem mem_linkObjects {s : Store} {l : PatientClinician} :
    l ∈ linkObjects s ↔ l ∈ s.links ∧ l.deleted_at = none := by
  simp [linkObjects, List.mem_filter]

/-- Membership in the default procedure read. -/
theorem mem_procedureObjects {s : Store} {pr : Procedure} :
    pr ∈ procedureObjects s ↔ pr ∈ s.procedures ∧ pr.deleted_at = none := by
  simp [procedureObjects, List.mem_filter]

/-- The search narrowing only removes rows. -/
theorem applySearch_subset {search : Option String} {b : List Patient} {p : Patient}
    (h : p ∈ applySearch search b) : p ∈ b := by
  unfold applySearch at h
  cases search with
  | none => exact h
  | some q =>
      dsimp only at h
      by_cases hq : q = ""
      · rwa [if_pos hq] at h
      · rw [if_neg hq] at h
        exact (List.mem_filter.1 h).1

/-- The role scoping keeps only default-read patients. -/
theorem patientBaseScope_subset {s : Store} {u : Principal} {p : Patient}
    (h : p ∈ patientBaseScope s u) : p ∈ patientObjects s := by
  unfold patientBaseScope at h
  by_cases hadm : u.inPatientAdminGroup
  · rwa [if_pos hadm] at h
  · rw [if_neg hadm] at h
    cases hcp : u.clinicianProfileId with
    | some cid =>
        rw [hcp] at h
        exact (List.mem_filter.1 h).1
    | none =>
        rw [hcp] at h
        exact absurd h (List.not_mem_nil p)

/-- Every patient returned by the patient endpoint comes from the default
(non-deleted) read, whatever the role and search parameter. -/
theorem patientViewSetQueryset_subset {s : Store} {u : Principal}
    {search : Option String} {p : Patient}
    (h : p ∈ patientViewSetQueryset s u search) : p ∈ patientObjects s :=
  patientBaseScope_subset (applySearch_subset h)

/-- Every procedure returned by the procedure endpoint comes from the default
(non-deleted) read. -/
theorem procedureViewSetQueryset_subset {s : Store} {u : Principal} {pr : Procedure}
    (h : pr ∈ procedureViewSetQueryset s u) : pr ∈ procedureObjects s := by
  unfold procedureViewSetQueryset at h
  cases hcp : u.clinicianProfileId with
  | some cid =>
      rw [hcp] at h
      exact (List.mem_filter.1 h).1
  | none =>
      rw [hcp] at h
      exact absurd h (List.not_mem_nil pr)

/-- Members of the department scope are live clinicians of that department. -/
theorem clinicianDeptScope_mem {s : Store} {deptId : Nat} {c : Clinician}
    (h : c ∈ clinicianDeptScope s deptId) :
    c ∈ s.clinicians ∧ c.deleted_at = none ∧ c.departmentId = deptId := by
  have := List.mem_filter.1 h
  simp only [decide_eq_true_eq] at this
  exact ⟨this.1, this.2.1, this.2.2⟩

/-- The role scoping only removes clinicians. -/
theorem clinicianRoleScope_subset {u : Principal} {qs0 : List Clinician}
    {c : Clinician} (h : c ∈ clinicianRoleScope u qs0) : c ∈ qs0 := by
  unfold clinicianRoleScope at h
  by_cases hb : (u.clinicianProfileId.isSome && !u.inPatientAdminGroup) = true
  · rw [if_pos hb] at h
    exact (List.mem_filter.1 h).1
  · rwa [if_neg hb] at h

/-- The parameter scoping only removes clinicians when it succeeds. -/
theorem clinicianParamScope_subset {u : Principal} {param : Option (Option Int)}
    {qs1 qs : List Clinician} (h : clinicianParamScope u param qs1 = some qs) :
    ∀ c ∈ qs, c ∈ qs1 := by
  unfold clinicianParamScope at h
  cases param with
  | none =>
      cases h
      exact fun c hc => hc
  | some pv =>
      dsimp only at h
      by_cases hadm : u.inPatientAdminGroup
      · rw [if_pos hadm] at h
        cases pv with
        | none => cases h
        | some n =>
            cases h
            exact fun c hc => (List.mem_filter.1 hc).1
      · rw [if_neg hadm] at h
        cases h
        exact fun c hc => hc

/-- Every clinician produced by the report scoping is a live clinician of the
requested department. -/
theorem scopedClinicians_mem {s : Store} {u : Principal} {deptId : Nat}
    {param : Option (Option Int)} {qs : List Clinician}
    (h : scopedClinicians s u deptId param = some qs) :
    ∀ c ∈ qs, c ∈ s.clinicians ∧ c.deleted_at = none ∧ c.departmentId = deptId :=
  fun c hc =>
    clinicianDeptScope_mem (clinicianRoleScope_subset
      (clinicianParamScope_subset h c hc))

/-- For an admin, a present integral `clinician_id` restricts the scoped set
to that id. -/
theorem scopedClinicians_param_mem {s : Store} {u : Principal} {deptId : Nat}
    {n : Int} {qs : List Clinician}
    (hAdm : u.inPatientAdminGroup = true)
    (h : scopedClinicians s u deptId (some (some n)) = some qs) :
    ∀ c ∈ qs, (c.id : Int) = n := by
  unfold scopedClinicians clinicianParamScope at h
  rw [hAdm] at h
  simp only [if_true] at h
  cases h
  intro c hc
  have := (List.mem_filter.1 hc).2
  simpa [decide_eq_true_eq] using this

/-- For a non-admin principal the scoping never fails, whatever the
`clinician_id` parameter. -/
theorem scopedClinicians_isSome_of_not_admin {s : Store} {u : Principal}
    {deptId : Nat} (param : Option (Option Int))
    (hAdm : u.inPatientAdminGroup = false) :
    scopedClinicians s u deptId param =
      some (clinicianRoleScope u (clinicianDeptScope s deptId)) := by
  unfold scopedClinicians clinicianParamScope
  cases param with
  | none => rfl
  | some pv => rw [hAdm]; rfl

/-- `perform_create` never raises a field-keyed validation error. -/
theorem errorKeys_performCreate (s : Store) (u : Principal) (inp : ProcedureInput)
    (newId : Nat) : errorKeys (performCreate s u inp newId) = [] := by
  unfold performCreate
  by_cases hb : (u.clinicianProfileId.isSome && !u.inPatientAdminGroup) = true
  · rw [if_pos hb]
    cases hcp : u.clinicianProfileId with
    | some cid =>
        dsimp only
        by_cases hl : hasActiveLink s inp.patient_id cid = true
        · rw [if_pos hl]; rfl
        · rw [if_neg hl]; rfl
    | none => rfl
  · rw [if_neg hb]; rfl

/-- Every key carried by a creation outcome originates in the field-level
errors or in `ProcedureSerializer.validate`. -/
theorem errorKeys_subset (s : Store) (u : Principal) (now : Int)
    (inp : ProcedureInput) (newId : Nat) :
    ∀ k ∈ errorKeys (procedureCreate s u now inp newId),
      k ∈ fieldErrors s inp ∨ k ∈ validateErrors s u now inp := by
  intro k hk
  unfold procedureCreate at hk
  cases hf : fieldErrors s inp with
  | cons a l =>
      rw [hf] at hk
      refine Or.inl ?_
      exact List.mem_cons.2 (by simpa [errorKeys] using hk)
  | nil =>
      rw [hf] at hk
      cases hv : validateErrors s u now inp with
      | cons a l =>
          rw [hv] at hk
          refine Or.inr ?_
          exact List.mem_cons.2 (by simpa [errorKeys] using hk)
      | nil =>
          rw [hv] at hk
          rw [show (match ([] : List String) with
              | [] => (match ([] : List String) with
                  | [] => performCreate s u inp newId
                  | es => CreateOutcome.validationError es)
              | fs => CreateOutcome.validationError fs) = performCreate s u inp newId
            from rfl, errorKeys_performCreate] at hk
          exact absurd hk (List.not_mem_nil k)

/-- The filterset application only removes procedures when it succeeds. -/
theorem filtersetFilterQueryset_subset {s : Store} {pt : Option ProcedureType}
    {df dt dep : Option Int} {cl : Option Clinician} {qs out : List Procedure}
    (h : filtersetFilterQueryset s pt df dt dep cl qs = .ok out) :
    ∀ pr ∈ out, pr ∈ qs := by
  unfold filtersetFilterQueryset at h
  cases pt with
  | none => cases h
  | some t =>
      dsimp only at h
      by_cases hd : dateRangeReversed df dt = true
      · rw [if_pos hd] at h
        cases h
      · rw [if_neg hd] at h
        injection h with h
        subst h
        exact fun pr hpr => (List.mem_filter.1 hpr).1

/-- The view-level filter stage only removes procedures when it succeeds. -/
theorem schedFilterQueryset_subset {s : Store} {u : Principal}
    {params : SchedParams} {qs out : List Procedure}
    (h : schedFilterQueryset s u params qs = .ok out) :
    ∀ pr ∈ out, pr ∈ qs := by
  unfold schedFilterQueryset at h
  by_cases hb : (u.clinicianProfileId.isSome && !u.inPatientAdminGroup) = true
  · rw [if_pos hb] at h
    exact filtersetFilterQueryset_subset h
  · rw [if_neg hb] at h
    by_cases h1 : (params.procedure_type.isSome &&
        (params.procedure_type.bind (cleanedProcedureType s)).isNone) = true
    · rw [if_pos h1] at h
      cases h
    · rw [if_neg h1] at h
      by_cases h2 : (params.clinician.isSome &&
          (params.clinician.bind (cleanedClinician s)).isNone) = true
      · rw [if_pos h2] at h
        cases h
      · rw [if_neg h2] at h
        exact filtersetFilterQueryset_subset h

/-- The scheduled-patients base queryset of a clinician who is not an admin
contains only that clinician's procedures. -/
theorem schedBaseQueryset_self {s : Store} {u : Principal} {pt : ProcedureType}
    {pr : Procedure} {cid : Nat}
    (hA : u.inPatientAdminGroup = false) (hP : u.clinicianProfileId = some cid)
    (h : pr ∈ schedBaseQueryset s u pt) : pr.clinicianId = cid := by
  unfold schedBaseQueryset at h
  dsimp only at h
  have hcond : (u.clinicianProfileId.isSome && !u.inPatientAdminGroup) = true := by
    rw [hP, hA]
    rfl
  rw [if_pos hcond] at h
  have h2 := (List.mem_insertionSort procOrder).1 h
  have h3 := (List.mem_filter.1 h2).2
  rw [hP] at h3
  simpa [decide_eq_true_eq] using h3

/-- Inversion of a successful count-report response. -/
theorem countResponse_ok_inv {s : Store} {u : Principal} {deptId : Nat}
    {param : Option (Option Int)} {limit offset : Nat} {rows : List CountRow}
    {total did : Nat}
    (h : departmentClinicianPatientCounts s u deptId param limit offset =
      .ok rows total did) :
    ∃ qs dept, s.departments.find? (fun d => decide (d.id = deptId)) = some dept ∧
      scopedClinicians s u deptId param = some qs ∧
      rows = (paginate limit offset (qs.insertionSort clinOrder)).map
        (fun c => ⟨c.id, c.name, patientCountFor s c.id⟩) ∧
      total = (qs.insertionSort clinOrder).length ∧ did = dept.id := by
  unfold departmentClinicianPatientCounts at h
  cases hf : s.departments.find? (fun d => decide (d.id = deptId)) with
  | none => rw [hf] at h; cases h
  | some dept =>
      rw [hf] at h
      cases hs : scopedClinicians s u deptId param with
      | none => rw [hs] at h; cases h
      | some qs =>
          rw [hs] at h
          injection h with h1 h2 h3
          exact ⟨qs, dept, rfl, rfl, h1.symm, h2.symm, h3.symm⟩

/-! ## Claims -/

/-- C1: the spec says `visible_procedures` gives an admin every procedure
(with admin-wins for an admin who is also a clinician), but
`ProcedureViewSet.get_queryset` has no admin branch at all — contradicting its
own docstring ("patient_admin: all procedures").  On a store with two live
procedures, an admin without a clinician profile receives the empty set, and
an admin who is also clinician 1 receives only clinician 1's procedure. -/
theorem c1_admin_procedure_visibility_code_bug :
    c1Store.procedures.length = 2 ∧
    procedureViewSetQueryset c1Store adminPrincipal = [] ∧
    (procedureViewSetQueryset c1Store adminClinPrincipal).map Procedure.id = [21] := by
  refine ⟨rfl, ?_, ?_⟩ <;> decide

/-- C2 counterexample: in `linkStore` the only care relationship is
soft-deleted, so the claim's four-condition visible set is empty, yet the
view still lists the patient — the reverse-FK join never checks the link's
(or the clinician's) `deleted_at`. -/
theorem c2_counterexample :
    patientViewSetQueryset linkStore clinPrincipal none ≠
      claimVisiblePatients linkStore 1 := by
  decide

/-- C2 (amended): for a clinician principal who is not an admin, the visible
patients are exactly the non-soft-deleted patients with at least one
CareRelationship to the principal's clinician whose `relationship_end` is
null — the relationship's own `deleted_at` and the clinician's `deleted_at`
are NOT consulted; each such patient appears once. -/
theorem c2_clinician_visible_patients (s : Store) (u : Principal) (cid : Nat)
    (hA : u.inPatientAdminGroup = false) (hP : u.clinicianProfileId = some cid) :
    (∀ p : Patient, p ∈ patientViewSetQueryset s u none ↔
      p ∈ s.patients ∧ p.deleted_at = none ∧
      ∃ l ∈ s.links, l.patientId = p.id ∧ l.clinicianId = cid ∧
        l.relationship_end = none) ∧
    (s.patients.Nodup → (patientViewSetQueryset s u none).Nodup) := by
  have hbase : patientViewSetQueryset s u none =
      (patientObjects s).filter (fun p => decide (∃ l ∈ s.links,
        l.patientId = p.id ∧ l.clinicianId = cid ∧ l.relationship_end = none)) := by
    unfold patientViewSetQueryset applySearch patientBaseScope
    rw [hA, hP]
    simp
  constructor
  · intro p
    rw [hbase]
    simp only [List.mem_filter, decide_eq_true_eq]
    rw [mem_patientObjects]
    constructor
    · rintro ⟨⟨h1, h2⟩, h3⟩
      exact ⟨h1, h2, h3⟩
    · rintro ⟨h1, h2, h3⟩
      exact ⟨⟨h1, h2⟩, h3⟩
  · intro hnd
    rw [hbase]
    have h1 : (patientObjects s).Nodup := hnd.filter _
    exact h1.filter _

/-- C2 witness: the amended characterisation instantiated on `linkStore`. -/
theorem c2_clinician_visible_patients_witness :
    (exPat ∈ patientViewSetQueryset linkStore clinPrincipal none ↔
      exPat ∈ linkStore.patients ∧ exPat.deleted_at = none ∧
      ∃ l ∈ linkStore.links, l.patientId = exPat.id ∧ l.clinicianId = 1 ∧
        l.relationship_end = none) ∧
    (patientViewSetQueryset linkStore clinPrincipal none).Nodup :=
  ⟨(c2_clinician_visible_patients linkStore clinPrincipal 1 rfl rfl).1 exPat,
   (c2_clinician_visible_patients linkStore clinPrincipal 1 rfl rfl).2 (by decide)⟩

/-- C4 counterexample: a soft-deleted CareRelationship still contributes to a
read result and to a count — with the soft-deleted link present the clinician
sees one patient, with the row removed they see none, so the soft-deleted row
changed a default read's outcome. -/
theorem c4_counterexample :
    deletedLink.deleted_at ≠ none ∧
    (patientViewSetQueryset linkStore clinPrincipal none).length = 1 ∧
    (patientViewSetQueryset linkStoreNoLink clinPrincipal none).length = 0 := by
  refine ⟨?_, ?_, ?_⟩ <;> decide

/-- C4 (amended): deleting a soft-deletable row sets only `deleted_at`; the
default manager read of every soft-deletable entity hides soft-deleted rows;
the patient and procedure endpoints and the count report never RETURN a
soft-deleted row of their own entity under any role.  (A soft-deleted
CareRelationship can, however, still influence the clinician-scoped patient
list, per the counterexample.) -/
theorem c4_soft_delete_exclusion :
    (∀ (now : Nat) (p : Patient), (softDeletePatient now p).deleted_at = some now ∧
      (softDeletePatient now p).id = p.id ∧ (softDeletePatient now p).name = p.name ∧
      (softDeletePatient now p).email = p.email) ∧
    (∀ (now : Nat) (c : Clinician), (softDeleteClinician now c).deleted_at = some now ∧
      (softDeleteClinician now c).id = c.id ∧
      (softDeleteClinician now c).userId = c.userId ∧
      (softDeleteClinician now c).departmentId = c.departmentId ∧
      (softDeleteClinician now c).name = c.name) ∧
    (∀ (now : Nat) (l : PatientClinician), (softDeleteLink now l).deleted_at = some now ∧
      (softDeleteLink now l).id = l.id ∧
      (softDeleteLink now l).patientId = l.patientId ∧
      (softDeleteLink now l).clinicianId = l.clinicianId ∧
      (softDeleteLink now l).relationship_start = l.relationship_start ∧
      (softDeleteLink now l).relationship_end = l.relationship_end) ∧
    (∀ (now : Nat) (pr : Procedure), (softDeleteProcedure now pr).deleted_at = some now ∧
      (softDeleteProcedure now pr).id = pr.id ∧
      (softDeleteProcedure now pr).status = pr.status ∧
      (softDeleteProcedure now pr).scheduled_at = pr.scheduled_at) ∧
    (∀ s : Store,
      (∀ p ∈ patientObjects s, p.deleted_at = none) ∧
      (∀ c ∈ clinicianObjects s, c.deleted_at = none) ∧
      (∀ l ∈ linkObjects s, l.deleted_at = none) ∧
      (∀ pr ∈ procedureObjects s, pr.deleted_at = none)) ∧
    (∀ (s : Store) (u : Principal) (search : Option String),
      ∀ p ∈ patientViewSetQueryset s u search, p.deleted_at = none) ∧
    (∀ (s : Store) (u : Principal), ∀ pr ∈ procedureViewSetQueryset s u,
      pr.deleted_at = none) ∧
    (∀ (s : Store) (u : Principal) (deptId : Nat) (param : Option (Option Int))
      (limit offset : Nat) (rows : List CountRow) (total did : Nat),
      departmentClinicianPatientCounts s u deptId param limit offset =
        .ok rows total did →
      ∀ r ∈ rows, ∃ c ∈ s.clinicians, c.id = r.clinician_id ∧
        c.name = r.clinician_name ∧ c.deleted_at = none) := by
  refine ⟨fun now p => ⟨rfl, rfl, rfl, rfl⟩,
          fun now c => ⟨rfl, rfl, rfl, rfl, rfl⟩,
          fun now l => ⟨rfl, rfl, rfl, rfl, rfl, rfl⟩,
          fun now pr => ⟨rfl, rfl, rfl, rfl⟩,
          fun s => ⟨?_, ?_, ?_, ?_⟩, ?_, ?_, ?_⟩
  · exact fun p hp => (mem_patientObjects.1 hp).2
  · exact fun c hc => (mem_clinicianObjects.1 hc).2
  · exact fun l hl => (mem_linkObjects.1 hl).2
  · exact fun pr hpr => (mem_procedureObjects.1 hpr).2
  · intro s u search p hp
    exact (mem_patientObjects.1 (patientViewSetQueryset_subset hp)).2
  · intro s u pr hpr
    exact (mem_procedureObjects.1 (procedureViewSetQueryset_subset hpr)).2
  · intro s u deptId param limit offset rows total did hResp r hr
    obtain ⟨qs, dept, -, hs, hrows, -, -⟩ := countResponse_ok_inv hResp
    rw [hrows] at hr
    obtain ⟨c, hc, hrc⟩ := List.mem_map.1 hr
    have hcqs : c ∈ qs :=
      (List.mem_insertionSort clinOrder).1 (mem_of_mem_paginate hc)
    obtain ⟨hmem, hdel, -⟩ := scopedClinicians_mem hs c hcqs
    exact ⟨c, hmem, by rw [← hrc], by rw [← hrc], hdel⟩

/-- C4 witness: the amended invariant applied to concrete rows and stores. -/
theorem c4_soft_delete_exclusion_witness :
    (softDeletePatient 5 exPat).deleted_at = some 5 ∧
    exPat.deleted_at = none ∧ procA.deleted_at = none :=
  ⟨(c4_soft_delete_exclusion.1 5 exPat).1,
   c4_soft_delete_exclusion.2.2.2.2.2.1 wStore clinPrincipal none exPat (by decide),
   c4_soft_delete_exclusion.2.2.2.2.2.2.1 wStore clinPrincipal procA (by decide)⟩

/-- C3: on a successful count-report response, the rows are exactly the
requested page of the sorted scoped clinician set, each annotated with the
number of DISTINCT non-soft-deleted patients reachable via an active
relationship (so duplicate links to one patient count once), and every
clinician on the page appears even with count 0. -/
theorem c3_report_distinct_counts (s : Store) (u : Principal) (deptId : Nat)
    (param : Option (Option Int)) (limit offset : Nat) (qs : List Clinician)
    (rows : List CountRow) (total did : Nat)
    (hN : (s.patients.map Patient.id).Nodup)
    (hScope : scopedClinicians s u deptId param = some qs)
    (hResp : departmentClinicianPatientCounts s u deptId param limit offset =
      .ok rows total did) :
    rows = (paginate limit offset (qs.insertionSort clinOrder)).map
      (fun c => ⟨c.id, c.name, claimPatientCount s c.id⟩) ∧
    ∀ c ∈ paginate limit offset (qs.insertionSort clinOrder),
      ∃ r ∈ rows, r.clinician_id = c.id ∧ r.patient_count = claimPatientCount s c.id := by
  obtain ⟨qs2, dept, -, hs, hrows, -, -⟩ := countResponse_ok_inv hResp
  rw [hScope] at hs
  injection hs with hqs
  subst hqs
  have hfun : rows = (paginate limit offset (qs.insertionSort clinOrder)).map
      (fun c => ⟨c.id, c.name, claimPatientCount s c.id⟩) := by
    rw [hrows]
    exact List.map_congr_left
      (fun c _ => by rw [patientCountFor_eq_claimPatientCount s c.id hN])
  refine ⟨hfun, fun c hc => ?_⟩
  exact ⟨⟨c.id, c.name, claimPatientCount s c.id⟩,
    by rw [hfun]; exact List.mem_map_of_mem _ hc, rfl, rfl⟩

/-- C3 witness: the report on `wStore` (one active link for clinician 1, a
zero-count clinician 2) satisfies the characterisation. -/
theorem c3_report_distinct_counts_witness :
    [⟨1, "Dr. A", 1⟩, ⟨2, "Dr. B", 0⟩] =
      (paginate 20 0 ((clinicianRoleScope adminPrincipal
        (clinicianDeptScope wStore 1)).insertionSort clinOrder)).map
        (fun c => (⟨c.id, c.name, claimPatientCount wStore c.id⟩ : CountRow)) :=
  (c3_report_distinct_counts wStore adminPrincipal 1 none 20 0
    (clinicianRoleScope adminPrincipal (clinicianDeptScope wStore 1))
    [⟨1, "Dr. A", 1⟩, ⟨2, "Dr. B", 0⟩] 2 1
    (by decide) (by decide) (by decide)).1

/-- C8: on the count report, the `clinician_id` parameter has an admin-only
effect: for an admin a present non-integer value yields the field-keyed 400
and a present integer restricts every returned row to that id (possibly zero
rows); for a non-admin principal the parameter never produces a validation
error. -/
theorem c8_clinician_id_param_admin_only (s : Store) (u : Principal)
    (deptId : Nat) (limit offset : Nat) (dept : Department)
    (hDept : s.departments.find? (fun d => decide (d.id = deptId)) = some dept) :
    (u.inPatientAdminGroup = true →
      departmentClinicianPatientCounts s u deptId (some none) limit offset =
        .badRequest "clinician_id" ∧
      ∀ (n : Int) (rows : List CountRow) (total did : Nat),
        departmentClinicianPatientCounts s u deptId (some (some n)) limit offset =
          .ok rows total did →
        ∀ r ∈ rows, (r.clinician_id : Int) = n) ∧
    (u.inPatientAdminGroup = false →
      ∀ (param : Option (Option Int)) (f : String),
        departmentClinicianPatientCounts s u deptId param limit offset ≠
          .badRequest f) := by
  constructor
  · intro hAdm
    constructor
    · unfold departmentClinicianPatientCounts
      rw [hDept]
      have hnone : scopedClinicians s u deptId (some none) = none := by
        unfold scopedClinicians clinicianParamScope
        rw [hAdm]
        rfl
      rw [hnone]
    · intro n rows total did hResp r hr
      obtain ⟨qs, dept2, -, hs, hrows, -, -⟩ := countResponse_ok_inv hResp
      rw [hrows] at hr
      obtain ⟨c, hc, hrc⟩ := List.mem_map.1 hr
      have hcqs : c ∈ qs :=
        (List.mem_insertionSort clinOrder).1 (mem_of_mem_paginate hc)
      have := scopedClinicians_param_mem hAdm hs c hcqs
      rw [← hrc]
      exact this
  · intro hAdm param f
    unfold departmentClinicianPatientCounts
    rw [hDept, scopedClinicians_isSome_of_not_admin param hAdm]
    exact fun h => CountResponse.noConfusion h

/-- C8 witness: concrete admin and clinician requests on `wStore`. -/
theorem c8_clinician_id_param_admin_only_witness :
    departmentClinicianPatientCounts wStore adminPrincipal 1 (some none) 20 0 =
      .badRequest "clinician_id" ∧
    departmentClinicianPatientCounts wStore clinPrincipal 1 (some (some 2)) 20 0 ≠
      .badRequest "clinician_id" :=
  ⟨((c8_clinician_id_param_admin_only wStore adminPrincipal 1 20 0 dept1
      (by decide)).1 rfl).1,
   (c8_clinician_id_param_admin_only wStore clinPrincipal 1 20 0 dept1
      (by decide)).2 rfl (some (some 2)) "clinician_id"⟩

/-- C10: annotating only the requested page with patient counts (what the
view does) produces, for every store, principal, department, parameter and
page, exactly the response of the reference algorithm that annotates the
whole scoped set first, sorts the annotated rows by (name, id) and paginates
last — the count does not take part in the sort key. -/
theorem c10_page_annotation_refines_full_annotation (s : Store) (u : Principal)
    (deptId : Nat) (param : Option (Option Int)) (limit offset : Nat) :
    departmentClinicianPatientCounts s u deptId param limit offset =
      refDepartmentClinicianPatientCounts s u deptId param limit offset := by
  unfold departmentClinicianPatientCounts refDepartmentClinicianPatientCounts
  cases hf : s.departments.find? (fun d => decide (d.id = deptId)) with
  | none => rfl
  | some dept =>
      cases hs : scopedClinicians s u deptId param with
      | none => rfl
      | some qs =>
          have hmap : (qs.insertionSort clinOrder).map
              (fun c => (⟨c.id, c.name, patientCountFor s c.id⟩ : CountRow)) =
              (qs.map (fun c => (⟨c.id, c.name, patientCountFor s c.id⟩ : CountRow))).insertionSort
                rowOrder :=
            List.map_insertionSort clinOrder rowOrder _ qs
              (fun a _ b _ => Iff.rfl)
          have hrows : (paginate limit offset (qs.insertionSort clinOrder)).map
              (fun c => (⟨c.id, c.name, patientCountFor s c.id⟩ : CountRow)) =
              paginate limit offset
                ((qs.map (fun c => (⟨c.id, c.name, patientCountFor s c.id⟩ : CountRow))).insertionSort
                  rowOrder) := by
            unfold paginate
            rw [← hmap, List.map_take, List.map_drop]
          have hlen : (qs.insertionSort clinOrder).length =
              ((qs.map (fun c => (⟨c.id, c.name, patientCountFor s c.id⟩ : CountRow))).insertionSort
                rowOrder).length := by
            rw [← hmap, List.length_map]
          dsimp only
          rw [hrows, hlen]

/-- C5 counterexample: the `clinician` filter parameter on the
scheduled-patients report is NOT stripped for a clinician principal — naming
the other clinician changes the result (from the clinician's own procedure to
the empty page), so the parameter is applied, not ignored. -/
theorem c5_counterexample :
    procedureScheduledPatients c5Store clinPrincipal c5ParamsOther 20 0 ≠
      procedureScheduledPatients c5Store clinPrincipal c5ParamsBase 20 0 := by
  decide

/-- C5 (amended): for a clinician principal who is not an admin, the
`clinician_id` parameter is ignored on both reports (the count view skips it,
the scheduled view pops it and its filterset defines no such filter), and on
the scheduled-patients report the `clinician` parameter, although applied as
a filter, can only narrow the already self-scoped base — every returned
procedure still belongs to the principal's own clinician, so no parameter
value ever exposes another clinician's data. -/
theorem c5_self_scope (s : Store) (u : Principal) (cid : Nat) (deptId : Nat)
    (limit offset : Nat)
    (hA : u.inPatientAdminGroup = false) (hP : u.clinicianProfileId = some cid) :
    (∀ param, departmentClinicianPatientCounts s u deptId param limit offset =
      departmentClinicianPatientCounts s u deptId none limit offset) ∧
    (∀ (params : SchedParams) (v : Option Int),
      procedureScheduledPatients s u { params with clinician_id := v } limit offset =
        procedureScheduledPatients s u params limit offset) ∧
    (∀ (params : SchedParams) (rows : List Procedure),
      procedureScheduledPatients s u params limit offset = .ok rows →
      ∀ pr ∈ rows, pr.clinicianId = cid) := by
  refine ⟨?_, ?_, ?_⟩
  · intro param
    unfold departmentClinicianPatientCounts
    cases hf : s.departments.find? (fun d => decide (d.id = deptId)) with
    | none => rfl
    | some dept =>
        dsimp only
        rw [scopedClinicians_isSome_of_not_admin param hA,
          scopedClinicians_isSome_of_not_admin none hA]
  · intro params v
    cases params
    rfl
  · intro params rows hResp pr hpr
    unfold procedureScheduledPatients at hResp
    cases hptid : params.procedure_type_id with
    | none =>
        rw [hptid] at hResp
        cases hResp
    | some pv =>
        cases pv with
        | none =>
            rw [hptid] at hResp
            cases hResp
        | some n =>
            rw [hptid] at hResp
            dsimp only at hResp
            cases hft : s.procedureTypes.find? (fun t => decide ((t.id : Int) = n)) with
            | none =>
                rw [hft] at hResp
                cases hResp
            | some pt =>
                rw [hft] at hResp
                dsimp only at hResp
                by_cases hd : dateRangeReversed params.date_from params.date_to = true
                · rw [if_pos hd] at hResp
                  cases hResp
                · rw [if_neg hd] at hResp
                  cases hsf : schedFilterQueryset s u params (schedBaseQueryset s u pt) with
                  | error f =>
                      rw [hsf] at hResp
                      cases hResp
                  | ok qsf =>
                      rw [hsf] at hResp
                      injection hResp with hrows
                      subst hrows
                      have h1 : pr ∈ qsf := mem_of_mem_paginate hpr
                      have h2 : pr ∈ schedBaseQueryset s u pt :=
                        schedFilterQueryset_subset hsf pr h1
                      exact schedBaseQueryset_self hA hP h2

/-- C5 witness: the amended statement on `c5Store` — the count view ignores
`clinician_id`, the scheduled view ignores `clinician_id`, and the
self-scoping bound instantiated on the clinician's own returned procedure. -/
theorem c5_self_scope_witness :
    departmentClinicianPatientCounts c5Store clinPrincipal 1 (some (some 2)) 20 0 =
      departmentClinicianPatientCounts c5Store clinPrincipal 1 none 20 0 ∧
    procedureScheduledPatients c5Store clinPrincipal
      { c5ParamsBase with clinician_id := some 7 } 20 0 =
      procedureScheduledPatients c5Store clinPrincipal c5ParamsBase 20 0 ∧
    procA.clinicianId = 1 :=
  ⟨(c5_self_scope c5Store clinPrincipal 1 1 20 0 rfl rfl).1 (some (some 2)),
   (c5_self_scope c5Store clinPrincipal 1 1 20 0 rfl rfl).2.1 c5ParamsBase (some 7),
   (c5_self_scope c5Store clinPrincipal 1 1 20 0 rfl rfl).2.2 c5ParamsBase [procA]
     (by decide) procA (by decide)⟩

/-- Field-level error keys are drawn from the five field names, and
`scheduled_at` only when the payload omits it. -/
theorem fieldErrors_mem_of {s : Store} {inp : ProcedureInput} {k : String}
    (hk : k ∈ fieldErrors s inp) :
    k = "procedure_type_id" ∨ k = "patient_id" ∨ k = "clinician_id" ∨
    (k = "scheduled_at" ∧ inp.scheduled_at = none) ∨ k = "status" := by
  unfold fieldErrors at hk
  simp only [List.mem_append] at hk
  rcases hk with (((h | h) | h) | h) | h
  · refine Or.inl ?_
    revert h
    split
    · intro h
      exact absurd h (List.not_mem_nil _)
    · intro h
      simpa using h
  · refine Or.inr (Or.inl ?_)
    revert h
    split
    · intro h
      exact absurd h (List.not_mem_nil _)
    · intro h
      simpa using h
  · refine Or.inr (Or.inr (Or.inl ?_))
    revert h
    split
    · intro h
      exact absurd h (List.not_mem_nil _)
    · intro h
      simpa using h
  · revert h
    split
    · intro h
      exact absurd h (List.not_mem_nil _)
    · next hcond =>
        intro h
        exact Or.inr (Or.inr (Or.inr (Or.inl
          ⟨by simpa using h, Option.not_isSome_iff_eq_none.1 hcond⟩)))
  · refine Or.inr (Or.inr (Or.inr (Or.inr ?_)))
    revert h
    split
    · intro h
      exact absurd h (List.not_mem_nil _)
    · intro h
      simpa using h

/-- Cross-field validation keys are the scheduling-window key (under its exact
condition) or the clinician/patient ownership keys. -/
theorem validateErrors_mem_of {s : Store} {u : Principal} {now : Int}
    {inp : ProcedureInput} {k : String} (hk : k ∈ validateErrors s u now inp) :
    k ∈ (if inp.status = "PLANNED" ∨ inp.status = "SCHEDULED" then
          (match inp.scheduled_at with
           | none => ["scheduled_at"]
           | some t => if t < now then ["scheduled_at"] else [])
         else []) ∨ k = "clinician_id" ∨ k = "patient_id" := by
  unfold validateErrors at hk
  dsimp only at hk
  by_cases hb : ((u.isAuthenticated && u.clinicianProfileId.isSome) &&
      !(u.isAuthenticated && u.inPatientAdminGroup)) = true
  · rw [if_pos hb] at hk
    cases hcp : u.clinicianProfileId with
    | some c0 =>
        rw [hcp] at hk
        dsimp only at hk
        simp only [List.mem_append] at hk
        rcases hk with (h | h) | h
        · exact Or.inl h
        · refine Or.inr (Or.inl ?_)
          revert h
          split
          · intro h
            exact absurd h (List.not_mem_nil _)
          · intro h
            simpa using h
        · refine Or.inr (Or.inr ?_)
          revert h
          split
          · intro h
            exact absurd h (List.not_mem_nil _)
          · intro h
            simpa using h
    | none =>
        rw [hcp] at hk
        exact Or.inl hk
  · rw [if_neg hb] at hk
    exact Or.inl hk

/-- C6: a clinician (who is not an admin) creating a procedure gets
field-keyed validation errors, never a 403: naming another clinician yields an
error keyed `clinician_id`, and naming themself with a patient they have no
active relationship to yields an error keyed `patient_id` — in particular the
outcome is not PermissionDenied. -/
theorem c6_clinician_create_errors (s : Store) (u : Principal) (now : Int)
    (inp : ProcedureInput) (newId : Nat) (cid : Nat)
    (hAuth : u.isAuthenticated = true) (hA : u.inPatientAdminGroup = false)
    (hP : u.clinicianProfileId = some cid) (hF : fieldErrors s inp = []) :
    (inp.clinician_id ≠ cid →
      ∃ fs, procedureCreate s u now inp newId = .validationError fs ∧
        "clinician_id" ∈ fs) ∧
    (inp.clinician_id = cid → hasActiveLink s inp.patient_id cid = false →
      (∃ fs, procedureCreate s u now inp newId = .validationError fs ∧
        "patient_id" ∈ fs) ∧
      procedureCreate s u now inp newId ≠ .permissionDenied) := by
  have hb : ((u.isAuthenticated && u.clinicianProfileId.isSome) &&
      !(u.isAuthenticated && u.inPatientAdminGroup)) = true := by
    rw [hAuth, hA, hP]
    rfl
  constructor
  · intro hne
    have hkey : "clinician_id" ∈ validateErrors s u now inp := by
      unfold validateErrors
      dsimp only
      rw [if_pos hb, hP]
      dsimp only
      rw [if_neg hne]
      simp [List.mem_append]
    cases hv : validateErrors s u now inp with
    | nil =>
        rw [hv] at hkey
        exact absurd hkey (List.not_mem_nil _)
    | cons a l =>
        refine ⟨a :: l, ?_, hv ▸ hkey⟩
        unfold procedureCreate
        rw [hF, hv]
  · intro heq hlink
    have hkey : "patient_id" ∈ validateErrors s u now inp := by
      unfold validateErrors
      dsimp only
      rw [if_pos hb, hP]
      dsimp only
      rw [heq, hlink]
      simp [List.mem_append]
    cases hv : validateErrors s u now inp with
    | nil =>
        rw [hv] at hkey
        exact absurd hkey (List.not_mem_nil _)
    | cons a l =>
        have hout : procedureCreate s u now inp newId = .validationError (a :: l) := by
          unfold procedureCreate
          rw [hF, hv]
        refine ⟨⟨a :: l, hout, hv ▸ hkey⟩, ?_⟩
        rw [hout]
        exact fun hc => CreateOutcome.noConfusion hc

/-- C6 witness: clinician 1 on `wStore` naming clinician 2, and naming
themself with the unlinked patient 2. -/
theorem c6_clinician_create_errors_witness :
    (∃ fs, procedureCreate wStore clinPrincipal 50
        ⟨1, 1, 2, none, some 100, none, "PLANNED"⟩ 99 = .validationError fs ∧
      "clinician_id" ∈ fs) ∧
    (∃ fs, procedureCreate wStore clinPrincipal 50
        ⟨2, 1, 1, none, some 100, none, "PLANNED"⟩ 99 = .validationError fs ∧
      "patient_id" ∈ fs) ∧
    procedureCreate wStore clinPrincipal 50
        ⟨2, 1, 1, none, some 100, none, "PLANNED"⟩ 99 ≠ .permissionDenied :=
  ⟨(c6_clinician_create_errors wStore clinPrincipal 50
      ⟨1, 1, 2, none, some 100, none, "PLANNED"⟩ 99 1 rfl rfl rfl (by decide)).1
      (by decide),
   ((c6_clinician_create_errors wStore clinPrincipal 50
      ⟨2, 1, 1, none, some 100, none, "PLANNED"⟩ 99 1 rfl rfl rfl (by decide)).2
      rfl (by decide)).1,
   ((c6_clinician_create_errors wStore clinPrincipal 50
      ⟨2, 1, 1, none, some 100, none, "PLANNED"⟩ 99 1 rfl rfl rfl (by decide)).2
      rfl (by decide)).2⟩

/-- C7: for PLANNED or SCHEDULED, `scheduled_at` is required and must be at
or after the validation-time clock; a missing or past value makes creation
fail with an error keyed `scheduled_at`, an at-or-after value never produces
that key; for the four terminal statuses no future-time constraint applies. -/
theorem c7_scheduling_window (s : Store) (u : Principal) (now : Int)
    (inp : ProcedureInput) (newId : Nat) :
    ((inp.status = "PLANNED" ∨ inp.status = "SCHEDULED") →
      (inp.scheduled_at = none →
        ∃ fs, procedureCreate s u now inp newId = .validationError fs ∧
          "scheduled_at" ∈ fs) ∧
      (∀ t : Int, inp.scheduled_at = some t → t < now → fieldErrors s inp = [] →
        ∃ fs, procedureCreate s u now inp newId = .validationError fs ∧
          "scheduled_at" ∈ fs) ∧
      (∀ t : Int, inp.scheduled_at = some t → now ≤ t →
        "scheduled_at" ∉ errorKeys (procedureCreate s u now inp newId))) ∧
    ((inp.status = "COMPLETED" ∨ inp.status = "CANCELLED" ∨
        inp.status = "NO_SHOW" ∨ inp.status = "VOID") →
      ∀ t : Int, inp.scheduled_at = some t →
        "scheduled_at" ∉ errorKeys (procedureCreate s u now inp newId)) := by
  constructor
  · intro hst
    refine ⟨?_, ?_, ?_⟩
    · intro hsched
      have hkey : "scheduled_at" ∈ fieldErrors s inp := by
        unfold fieldErrors
        rw [hsched]
        simp [List.mem_append]
      cases hf : fieldErrors s inp with
      | nil =>
          rw [hf] at hkey
          exact absurd hkey (List.not_mem_nil _)
      | cons a l =>
          refine ⟨a :: l, ?_, hf ▸ hkey⟩
          unfold procedureCreate
          rw [hf]
    · intro t hsched hlt hF
      have hkey : "scheduled_at" ∈ validateErrors s u now inp := by
        unfold validateErrors
        dsimp only
        rw [if_pos hst, hsched]
        dsimp only
        rw [if_pos hlt]
        by_cases hb : ((u.isAuthenticated && u.clinicianProfileId.isSome) &&
            !(u.isAuthenticated && u.inPatientAdminGroup)) = true
        · rw [if_pos hb]
          cases hcp : u.clinicianProfileId with
          | some c0 => simp [List.mem_append]
          | none => simp
        · rw [if_neg hb]
          simp
      cases hv : validateErrors s u now inp with
      | nil =>
          rw [hv] at hkey
          exact absurd hkey (List.not_mem_nil _)
      | cons a l =>
          refine ⟨a :: l, ?_, hv ▸ hkey⟩
          unfold procedureCreate
          rw [hF, hv]
    · intro t hsched hge hmem
      rcases errorKeys_subset s u now inp newId _ hmem with h | h
      · rcases fieldErrors_mem_of h with h | h | h | ⟨-, h⟩ | h
        · exact absurd h (by simp)
        · exact absurd h (by simp)
        · exact absurd h (by simp)
        · rw [hsched] at h
          exact Option.noConfusion h
        · exact absurd h (by simp)
      · rcases validateErrors_mem_of h with h | h | h
        · rw [if_pos hst, hsched] at h
          dsimp only at h
          rw [if_neg (not_lt.2 hge)] at h
          exact absurd h (List.not_mem_nil _)
        · exact absurd h (by simp)
        · exact absurd h (by simp)
  · intro hst t hsched hmem
    have hnp : ¬(inp.status = "PLANNED" ∨ inp.status = "SCHEDULED") := by
      rcases hst with h | h | h | h <;> rw [h] <;> decide
    rcases errorKeys_subset s u now inp newId _ hmem with h | h
    · rcases fieldErrors_mem_of h with h | h | h | ⟨-, h⟩ | h
      · exact absurd h (by simp)
      · exact absurd h (by simp)
      · exact absurd h (by simp)
      · rw [hsched] at h
        exact Option.noConfusion h
      · exact absurd h (by simp)
    · rcases validateErrors_mem_of h with h | h | h
      · rw [if_neg hnp] at h
        exact absurd h (List.not_mem_nil _)
      · exact absurd h (by simp)
      · exact absurd h (by simp)

/-- C7 witness: an admin creating a PLANNED procedure dated before the clock
fails naming `scheduled_at`; the same payload with status COMPLETED carries no
`scheduled_at` error. -/
theorem c7_scheduling_window_witness :
    (∃ fs, procedureCreate wStore adminPrincipal 50
        ⟨1, 1, 1, none, some 10, none, "PLANNED"⟩ 99 = .validationError fs ∧
      "scheduled_at" ∈ fs) ∧
    "scheduled_at" ∉ errorKeys (procedureCreate wStore adminPrincipal 50
        ⟨1, 1, 1, none, some 10, none, "COMPLETED"⟩ 99) :=
  ⟨((c7_scheduling_window wStore adminPrincipal 50
      ⟨1, 1, 1, none, some 10, none, "PLANNED"⟩ 99).1 (Or.inl rfl)).2.1 10 rfl
      (by decide) (by decide),
   (c7_scheduling_window wStore adminPrincipal 50
      ⟨1, 1, 1, none, some 10, none, "COMPLETED"⟩ 99).2 (Or.inl rfl) 10 rfl⟩

/-- C9: a creation payload whose procedure type is retired (no type with that
id is active) fails with an error keyed `procedure_type_id`, and retiring a
type leaves the procedure read endpoints untouched — existing procedures stay
visible. -/
theorem c9_inactive_type_blocks_creation (s : Store) (u : Principal) (now : Int)
    (inp : ProcedureInput) (newId : Nat)
    (hInactive : ∀ t ∈ s.procedureTypes, t.id = inp.procedure_type_id →
      t.is_active = false) :
    (∃ fs, procedureCreate s u now inp newId = .validationError fs ∧
      "procedure_type_id" ∈ fs) ∧
    (∀ (s2 : Store) (u2 : Principal) (tid : Nat),
      procedureViewSetQueryset (retireType s2 tid) u2 =
        procedureViewSetQueryset s2 u2) := by
  constructor
  · have hany : ((s.procedureTypes.filter (fun t => t.is_active)).any
        (fun t => decide (t.id = inp.procedure_type_id))) = false := by
      rw [List.any_eq_false]
      intro t ht
      have h1 := List.mem_filter.1 ht
      intro hdec
      rw [decide_eq_true_eq] at hdec
      have h3 := hInactive t h1.1 hdec
      rw [h3] at h1
      exact absurd h1.2 (by simp)
    have hkey : "procedure_type_id" ∈ fieldErrors s inp := by
      unfold fieldErrors
      rw [hany]
      simp [List.mem_append]
    cases hf : fieldErrors s inp with
    | nil =>
        rw [hf] at hkey
        exact absurd hkey (List.not_mem_nil _)
    | cons a l =>
        refine ⟨a :: l, ?_, hf ▸ hkey⟩
        unfold procedureCreate
        rw [hf]
  · intro s2 u2 tid
    rfl

/-- C9 witness: the retired type 2 of `wStore` blocks creation naming it, and
retiring type 1 does not change the procedure list. -/
theorem c9_inactive_type_blocks_creation_witness :
    (∃ fs, procedureCreate wStore adminPrincipal 50
        ⟨1, 2, 1, none, some 100, none, "PLANNED"⟩ 99 = .validationError fs ∧
      "procedure_type_id" ∈ fs) ∧
    procedureViewSetQueryset (retireType wStore 1) clinPrincipal =
      procedureViewSetQueryset wStore clinPrincipal :=
  ⟨(c9_inactive_type_blocks_creation wStore adminPrincipal 50
      ⟨1, 2, 1, none, some 100, none, "PLANNED"⟩ 99 (by decide)).1,
   (c9_inactive_type_blocks_creation wStore adminPrincipal 50
      ⟨1, 2, 1, none, some 100, none, "PLANNED"⟩ 99 (by decide)).2
      wStore clinPrincipal 1⟩

end ClinicalApp
